import Mathlib

/-!
Shallow embedding of `github.com/mleku/log` (`log.go`), a leveled logging
facility.  Pure pieces (level tables, string helpers) are translated as Lean
functions; the stateful gate/format/write pipeline (`logPrint`) is modelled by
explicit state passing over a `LogState` record, with the external
collaborators (current time rendering, caller location, colorizer, spew dump,
printf substitution) supplied through an `Env` record of pure functions, as
the spec treats them as opaque.  Message producers are modelled as functions
`Nat → String × Nat` threading an invocation counter, so that laziness (the
producer is never invoked on a gated entry) is an observable fact of the
model.
-/

namespace GoLog

/-- Go: `type Level int32`.  All values appearing in the program are `0..7`
and no arithmetic is performed on them, only comparisons, so `Int` models the
type faithfully (no overflow can occur). -/
abbrev Level := Int

/-- Go: `Off Level = iota` (0). -/
def Off : Level := 0
/-- Go: `Fatal` (1). -/
def Fatal : Level := 1
/-- Go: `Error` (2). -/
def Error : Level := 2
/-- Go: `Check` (3). -/
def Check : Level := 3
/-- Go: `Warn` (4). -/
def Warn : Level := 4
/-- Go: `Info` (5). -/
def Info : Level := 5
/-- Go: `Debug` (6). -/
def Debug : Level := 6
/-- Go: `Trace` (7). -/
def Trace : Level := 7

/-- Go: the `LvlStr` map (`LevelMap = map[Level]string`).  A Go map read on a
missing key yields the zero value `""`, so the model is a total function with
default `""`. -/
def LvlStr (l : Level) : String :=
  if l = Off then "off  "
  else if l = Fatal then "fatal"
  else if l = Error then "error"
  else if l = Check then "check"
  else if l = Warn then "warn "
  else if l = Info then "info "
  else if l = Debug then "debug"
  else if l = Trace then "trace"
  else ""

/-- Go: the `lvlStrs` map (`map[string]Level`), with the `exists` flag of a
map read modelled by `Option`. -/
def lvlStrs (s : String) : Option Level :=
  if s = "off" then some Off
  else if s = "fatal" then some Fatal
  else if s = "error" then some Error
  else if s = "check" then some Check
  else if s = "warn" then some Warn
  else if s = "info" then some Info
  else if s = "debug" then some Debug
  else if s = "trace" then some Trace
  else none

/-- Go: `GetLevelByString(lvl string, def Level) Level` — case-sensitive
lookup in `lvlStrs`, returning `def` when the key is absent. -/
def GetLevelByString (lvl : String) (d : Level) : Level :=
  match lvlStrs lvl with
  | some ll => ll
  | none => d

/-- Go: `strings.TrimSpace(s)` — removes whitespace from both ends of the
string.  Implemented over the character list so that it evaluates by kernel
reduction. -/
def trimSpace (s : String) : String :=
  ⟨((s.data.dropWhile Char.isWhitespace).reverse.dropWhile
      Char.isWhitespace).reverse⟩

/-- Go: `strings.ToUpper(s)`, character-wise over the underlying list. -/
def toUpper (s : String) : String :=
  ⟨s.data.map Char.toUpper⟩

/-- Go: `GetLevelName(ll Level) string = strings.TrimSpace(LvlStr[ll])`. -/
def GetLevelName (ll : Level) : String :=
  trimSpace (LvlStr ll)

/-- Go: `strings.TrimSuffix(s, suf)` — removes one occurrence of `suf` from
the end of `s` when present, otherwise returns `s` unchanged. -/
def trimSuffix (s suf : String) : String :=
  if suf.data.isSuffixOf s.data
  then ⟨s.data.take (s.data.length - suf.data.length)⟩
  else s

/-- A Go `interface{}` value as it occurs in this program: a string, an
integer, or an error value (carrying its `Error()` description). -/
inductive GoVal where
  | str (s : String)
  | int (n : Int)
  | err (msg : String)
deriving Repr, DecidableEq

/-- Go: `fmt.Sprint(v)` — default text rendering of a single value. -/
def sprint (v : GoVal) : String :=
  match v with
  | .str s => s
  | .int n => toString n
  | .err msg => msg

/-- Go: the type switch `a[0].(string)` succeeding. -/
def GoVal.isStr (v : GoVal) : Bool :=
  match v with
  | .str _ => true
  | _ => false

/-- The opaque external collaborators of the pipeline, as the spec names
them: `timeOf` is `time.Now().Format` (format pattern to rendered stamp),
`loc` is the `runtime.Caller`-derived `GetLoc 3` result for the call,
`colorize` is `LevelSpecs[level].Colorizer`, `sdump` is `spew.Sdump`, and
`sprintf` is `fmt.Sprintf` template substitution. -/
structure Env where
  timeOf : String → String
  loc : String
  colorize : Level → String → String
  sdump : List GoVal → String
  sprintf : String → List GoVal → String

/-- The mutable process-wide state of the logger: threshold `logLevel`,
`timeStampFormat`, application name `App`, the sequence of strings written to
the sink (`output`), and the instrumentation counter `calls` counting
invocations of message producers. -/
structure LogState where
  logLevel : Level
  timeStampFormat : String
  app : String
  output : List String
  calls : Nat
deriving Repr, DecidableEq

/-- A lazy message producer: receives the current invocation counter and
returns the message together with the updated counter (a producer constructed
by the library bumps it by one when invoked). -/
abbrev Producer := Nat → String × Nat

/-- The loop body of Go's `joinStrings`: `o += fmt.Sprint(a[i])`, with `sep`
appended after every element except the last. -/
def joinStringsBody (sep : String) : List GoVal → String
  | [] => ""
  | [v] => sprint v
  | v :: w :: rest => sprint v ++ sep ++ joinStringsBody sep (w :: rest)

/-- Go: `joinStrings(sep, a...)` — returns a closure concatenating the
default renderings of the values with `sep` between consecutive elements and
no trailing separator; invoking it bumps the instrumentation counter. -/
def joinStrings (sep : String) (a : List GoVal) : Producer :=
  fun c => (joinStringsBody sep a, c + 1)

/-- Go: `logPrint(level, printFunc)()` — the gate & sink writer.  Under the
single lock: if `level > logLevel` return with no effect; otherwise render
the timestamp, resolve the location, invoke the producer, assemble the line
`"%s %s %s %s %s"` from timestamp, uppercased app name, colorized level tag,
message and location, strip one trailing `"\n"` if present, and write the
line plus the sink's terminating newline (`fmt.Fprintln`). -/
def logPrint (level : Level) (printFunc : Producer) (env : Env)
    (st : LogState) : LogState :=
  if level > st.logLevel then st
  else
    let timeText := env.timeOf st.timeStampFormat
    let loc := env.loc
    let app := st.app
    let msgCalls := printFunc st.calls
    let s := timeText ++ " " ++ toUpper app ++ " "
        ++ env.colorize level (LvlStr level) ++ " " ++ msgCalls.1 ++ " " ++ loc
    let s := trimSuffix s "\n"
    { st with calls := msgCalls.2, output := st.output ++ [s ++ "\n"] }

/-- Go: `_c(level)` — the lazy-closure printer: passes the caller's closure
straight to `logPrint` as the producer. -/
def _c (level : Level) (closure : Producer) (env : Env) (st : LogState) :
    LogState :=
  logPrint level closure env st

/-- Go: `_chk(level)` — the error-check printer.  `none` models a nil error;
`some msg` a non-nil error whose `Error()` string is `msg`.  On a non-nil
error it routes `joinStrings(" ", "CHECK:", e)` through `logPrint` and
returns `true`; on nil it does nothing and returns `false`. -/
def _chk (level : Level) (e : Option String) (env : Env) (st : LogState) :
    Bool × LogState :=
  match e with
  | some msg =>
      (true, logPrint level (joinStrings " " [.str "CHECK:", .err msg]) env st)
  | none => (false, st)

/-- Go: `_f(level)` — the formatted printer: the producer performs the
`fmt.Sprintf` substitution lazily. -/
def _f (level : Level) (format : String) (a : List GoVal) (env : Env)
    (st : LogState) : LogState :=
  logPrint level (fun c => (env.sprintf format a, c + 1)) env st

/-- Go: `_ln(l)` — the line printer: joins the values with spaces via
`joinStrings` and routes through `logPrint`. -/
def _ln (l : Level) (a : List GoVal) (env : Env) (st : LogState) : LogState :=
  logPrint l (joinStrings " " a) env st

/-- Go: `_s(level)` — the dump printer.  `a[0]` on an empty slice panics
(index out of range), modelled by `Except.error`; otherwise if the first
element is a string it becomes the header (`strings.TrimSpace` plus a
newline) and is consumed, else the header is `"spew:\n"` and all elements are
dumped. -/
def _s (level : Level) (a : List GoVal) (env : Env) (st : LogState) :
    Except String LogState :=
  match a with
  | [] => .error "runtime error: index out of range [0] with length 0"
  | a0 :: rest =>
      let ta :=
        match a0 with
        | .str s => (trimSpace s ++ "\n", rest)
        | _ => ("spew:\n", a0 :: rest)
      .ok (logPrint level (fun c => (ta.1 ++ env.sdump ta.2, c + 1)) env st)

/-- Events of the lock-discipline view of the configuration setters: used to
record which writes happen between a `lock` and an `unlock` of `writerMx`. -/
inductive Ev where
  | lock
  | unlock
  | writeTimeStampFormat (format : String)
  | writeLogLevel (l : Level)
deriving Repr, DecidableEq

/-- Go: `SetLogLevel(l)` — acquires `writerMx`, writes `logLevel`, releases
(via defer).  Event-trace view. -/
def SetLogLevelEv (l : Level) : List Ev :=
  [.lock, .writeLogLevel l, .unlock]

/-- Go: `SetTimeStampFormat(format)` — assigns `timeStampFormat` directly;
the function body contains no `writerMx.Lock()` call.  Event-trace view. -/
def SetTimeStampFormatEv (format : String) : List Ev :=
  [.writeTimeStampFormat format]

/-- The line `logPrint` appends to the sink on a passing entry, factored out
of its body: the `"%s %s %s %s %s"` assembly, the `TrimSuffix` step and the
`Fprintln` terminating newline. -/
def entryLine (level : Level) (msg : String) (env : Env) (st : LogState) :
    String :=
  trimSuffix
    (env.timeOf st.timeStampFormat ++ " " ++ toUpper st.app ++ " "
      ++ env.colorize level (LvlStr level) ++ " " ++ msg ++ " " ++ env.loc)
    "\n" ++ "\n"

/-- Following the words of the spec sentence for the dump printer ("trailing
whitespace trimmed"): removes whitespace from the end of the string only.
Used to compare the spec's predicted header against the code's
`strings.TrimSpace`. -/
def trimTrailingSpace (s : String) : String :=
  ⟨(s.data.reverse.dropWhile Char.isWhitespace).reverse⟩

/-- A concrete environment for witnesses: constant collaborators so that the
pipeline evaluates to literal strings. -/
def env0 : Env :=
  { timeOf := fun _ => "T"
    loc := "L"
    colorize := fun _ s => s
    sdump := fun _ => "D"
    sprintf := fun f _ => f }

/-- A concrete state with threshold `Trace` (everything passes the gate). -/
def st0 : LogState :=
  { logLevel := Trace, timeStampFormat := "fmt", app := "", output := []
    calls := 0 }

/-- A concrete state with threshold `Info` (levels `Debug`/`Trace` are
gated). -/
def stInfo : LogState :=
  { logLevel := Info, timeStampFormat := "fmt", app := "", output := []
    calls := 0 }

/-- A concrete message producer for witnesses. -/
def pHello : Producer := fun c => ("hello", c + 1)

/-- A concrete message producer whose message ends in a newline. -/
def pNewline : Producer := fun c => ("m\n", c + 1)

end GoLog

namespace GoLog

theorem append_singleton_ne (l : List String) (s : String) : l ++ [s] ≠ l := by
  intro h
  have hlen := congrArg List.length h
  simp at hlen

theorem logPrint_gate (level : Level) (p : Producer) (env : Env)
    (st : LogState) (h : st.logLevel < level) :
    logPrint level p env st = st := by
  unfold logPrint
  rw [if_pos h]

theorem logPrint_pass (level : Level) (p : Producer) (env : Env)
    (st : LogState) (h : level ≤ st.logLevel) :
    logPrint level p env st =
      { st with
        calls := (p st.calls).2,
        output := st.output ++ [entryLine level (p st.calls).1 env st] } := by
  unfold logPrint entryLine
  rw [if_neg (not_lt.2 h)]

theorem singleton_suffix_getLast (a : Char) (l : List Char) :
    [a] <:+ l ↔ l.getLast? = some a := by
  constructor
  · rintro ⟨t, rfl⟩
    simp
  · intro hl
    rcases l.eq_nil_or_concat with rfl | ⟨l', b, rfl⟩
    · simp at hl
    · rw [List.concat_eq_append] at hl ⊢
      rw [List.getLast?_concat] at hl
      exact ⟨l', by rw [Option.some_inj.mp hl]⟩

theorem space_append_data_ne_nil (t : String) : (" " ++ t).data ≠ [] := by
  rw [String.data_append]
  show ' ' :: t.data ≠ []
  exact List.cons_ne_nil _ _

theorem trimSuffix_newline_append (X Y : String) (hY : Y.data ≠ []) :
    trimSuffix (X ++ Y) "\n" = X ++ trimSuffix Y "\n" := by
  have hlast : (X ++ Y).data.getLast? = Y.data.getLast? := by
    rw [String.data_append, List.getLast?_append]
    cases hYl : Y.data.getLast? with
    | none => exact absurd (List.getLast?_eq_none_iff.mp hYl) hY
    | some b => rfl
  have hcond : ("\n".data.isSuffixOf (X ++ Y).data)
      = ("\n".data.isSuffixOf Y.data) := by
    show (['\n'].isSuffixOf (X ++ Y).data) = (['\n'].isSuffixOf Y.data)
    apply Bool.eq_iff_iff.mpr
    rw [List.isSuffixOf_iff_suffix, List.isSuffixOf_iff_suffix,
      singleton_suffix_getLast, singleton_suffix_getLast, hlast]
  have hYlen : 1 ≤ Y.data.length := List.length_pos.mpr hY
  unfold trimSuffix
  rw [hcond]
  by_cases hb : ("\n".data.isSuffixOf Y.data) = true
  · rw [if_pos hb, if_pos hb]
    apply String.ext
    rw [String.data_append]
    show (X.data ++ Y.data).take ((X.data ++ Y.data).length - ("\n".data).length)
      = X.data ++ Y.data.take (Y.data.length - ("\n".data).length)
    have hlen1 : ("\n".data).length = 1 := rfl
    rw [hlen1, List.length_append, List.take_append_eq_append_take,
      List.take_of_length_le (by omega : X.data.length ≤ X.data.length + Y.data.length - 1)]
    congr 2
    omega
  · rw [if_neg hb, if_neg hb]

theorem trimSuffix_newline_cases (s : String) :
    trimSuffix s "\n" = s ∨ trimSuffix s "\n" ++ "\n" = s := by
  unfold trimSuffix
  split
  · rename_i h
    right
    obtain ⟨t, ht⟩ := List.isSuffixOf_iff_suffix.mp h
    apply String.ext
    rw [String.data_append]
    show s.data.take (s.data.length - ("\n".data).length) ++ "\n".data = s.data
    have hlen1 : ("\n".data).length = 1 := rfl
    rw [hlen1, ← ht, List.length_append, hlen1]
    congr 1
    have harith : t.length + 1 - 1 = t.length := by omega
    rw [harith, List.take_left]
  · left
    rfl

theorem entryLine_eq (level : Level) (msg : String) (env : Env)
    (st : LogState) :
    entryLine level msg env st =
      env.timeOf st.timeStampFormat ++ " " ++ toUpper st.app ++ " "
        ++ env.colorize level (LvlStr level) ++ " " ++ msg
        ++ (trimSuffix (" " ++ env.loc) "\n" ++ "\n") := by
  unfold entryLine
  rw [String.append_assoc _ " " env.loc,
    trimSuffix_newline_append _ _ (space_append_data_ne_nil env.loc),
    String.append_assoc]

end GoLog

namespace GoLog

/-- C1: for every severity level L and every threshold T, invoking any
printer primitive bound to L produces a line on the sink if and only if
`L ≤ T` under the numeric ordering Off < Fatal < Error < Check < Warn <
Info < Debug < Trace; when `L > T` the call returns with no output (state
unchanged). -/
theorem c1_gate_iff :
    (Off < Fatal ∧ Fatal < Error ∧ Error < Check ∧ Check < Warn ∧
      Warn < Info ∧ Info < Debug ∧ Debug < Trace) ∧
    ∀ (level : Level) (p : Producer) (env : Env) (st : LogState),
      ((∃ s, (logPrint level p env st).output = st.output ++ [s]) ↔
        level ≤ st.logLevel) ∧
      (st.logLevel < level → logPrint level p env st = st) ∧
      (∀ a, (∃ s, (_ln level a env st).output = st.output ++ [s]) ↔
        level ≤ st.logLevel) ∧
      (∀ fm a, (∃ s, (_f level fm a env st).output = st.output ++ [s]) ↔
        level ≤ st.logLevel) ∧
      (∀ q : Producer, (∃ s, (_c level q env st).output = st.output ++ [s]) ↔
        level ≤ st.logLevel) ∧
      (∀ v rest, (∃ st' s, _s level (v :: rest) env st = Except.ok st' ∧
        st'.output = st.output ++ [s]) ↔ level ≤ st.logLevel) ∧
      (∀ m, (∃ s, ((_chk level (some m) env st).2).output = st.output ++ [s])
        ↔ level ≤ st.logLevel) := by
  refine ⟨by decide, fun level p env st => ?_⟩
  have key : ∀ q : Producer,
      (∃ s, (logPrint level q env st).output = st.output ++ [s]) ↔
        level ≤ st.logLevel := by
    intro q
    constructor
    · rintro ⟨s, hs⟩
      by_contra hgt
      rw [logPrint_gate level q env st (not_le.mp hgt)] at hs
      exact append_singleton_ne st.output s hs.symm
    · intro hle
      refine ⟨entryLine level (q st.calls).1 env st, ?_⟩
      rw [logPrint_pass level q env st hle]
  have keyS : ∀ q : Producer,
      ((∃ st' s, (Except.ok (logPrint level q env st) : Except String LogState)
        = Except.ok st' ∧
        st'.output = st.output ++ [s]) ↔ level ≤ st.logLevel) := by
    intro q
    constructor
    · rintro ⟨st', s, heq, hout⟩
      rw [Except.ok.injEq] at heq
      refine (key q).mp ⟨s, ?_⟩
      rw [heq]
      exact hout
    · intro hle
      refine ⟨logPrint level q env st, entryLine level (q st.calls).1 env st,
        rfl, ?_⟩
      rw [logPrint_pass level q env st hle]
  refine ⟨key p, fun hgt => logPrint_gate level p env st hgt, fun a => ?_,
    fun fm a => ?_, fun q => ?_, fun v rest => ?_, fun m => ?_⟩
  · exact key (joinStrings " " a)
  · exact key (fun c => (env.sprintf fm a, c + 1))
  · exact key q
  · cases v with
    | str s => exact keyS (fun c => ((trimSpace s ++ "\n") ++ env.sdump rest, c + 1))
    | int n => exact keyS (fun c => ("spew:\n" ++ env.sdump (GoVal.int n :: rest), c + 1))
    | err m => exact keyS (fun c => ("spew:\n" ++ env.sdump (GoVal.err m :: rest), c + 1))
  · exact key (joinStrings " " [.str "CHECK:", .err m])

/-- C1 witness: at threshold `Info` a `Trace` entry is dropped with the state
unchanged, and an `Info` entry at threshold `Trace` appends a line. -/
theorem c1_gate_iff_witness :
    logPrint Trace pHello env0 stInfo = stInfo ∧
    (logPrint Info pHello env0 st0).output = ["T  info  hello L\n"] := by
  constructor
  · exact (c1_gate_iff.2 Trace pHello env0 stInfo).2.1 (by decide)
  · rfl

/-- C2: when `L > T`, the lazy-closure printer and the formatted printer
never invoke their message producer: the resulting state (in particular the
producer-invocation counter `calls`) is exactly the input state, for every
producer. -/
theorem c2_lazy_producer_not_invoked (level : Level) (env : Env)
    (st : LogState) (h : st.logLevel < level) :
    (∀ q : Producer, _c level q env st = st) ∧
    (∀ fm a, _f level fm a env st = st) ∧
    (∀ q : Producer, (_c level q env st).calls = st.calls) ∧
    (∀ fm a, (_f level fm a env st).calls = st.calls) := by
  have hc : ∀ q : Producer, _c level q env st = st := fun q =>
    logPrint_gate level q env st h
  have hf : ∀ (fm : String) (a : List GoVal), _f level fm a env st = st :=
    fun fm a => logPrint_gate level (fun c => (env.sprintf fm a, c + 1)) env st h
  exact ⟨hc, hf, fun q => by rw [hc q], fun fm a => by rw [hf fm a]⟩

/-- C2 witness: a gated `Trace` closure call and formatted call leave the
counter at zero. -/
theorem c2_lazy_witness :
    _c Trace pHello env0 stInfo = stInfo ∧
    (_f Trace "x" [] env0 stInfo).calls = stInfo.calls := by
  exact ⟨(c2_lazy_producer_not_invoked Trace env0 stInfo (by decide)).1 pHello,
    (c2_lazy_producer_not_invoked Trace env0 stInfo (by decide)).2.2.2 "x" []⟩

/-- C3 counterexample: with the printer bound to `Trace` and threshold
`Info`, a present error makes the check printer return `true` while emitting
nothing at all, refuting the claim that a present error always yields exactly
one emitted line. -/
theorem c3_counterexample_gated :
    _chk Trace (some "boom") env0 stInfo = (true, stInfo) ∧
    stInfo.output = [] := by
  exact ⟨by decide, by decide⟩

/-- C3 (amended): provided the bound level passes the gate (`L ≤ T`), the
error-check printer on a present error returns `true` and emits exactly one
line containing the marker `"CHECK:"` followed by the error's description;
on an absent (nil) error it returns `false` and emits nothing. -/
theorem c3_check_printer (level : Level) (env : Env) (st : LogState)
    (m : String) (h : level ≤ st.logLevel) :
    _chk level none env st = (false, st) ∧
    (_chk level (some m) env st).1 = true ∧
    ((_chk level (some m) env st).2).output =
      st.output ++ [env.timeOf st.timeStampFormat ++ " " ++ toUpper st.app
        ++ " " ++ env.colorize level (LvlStr level) ++ " "
        ++ ("CHECK:" ++ " " ++ m)
        ++ (trimSuffix (" " ++ env.loc) "\n" ++ "\n")] := by
  refine ⟨rfl, rfl, ?_⟩
  show (logPrint level (joinStrings " " [.str "CHECK:", .err m]) env st).output = _
  rw [logPrint_pass _ _ _ _ h, entryLine_eq]
  rfl

/-- C3 witness: a present error at a passing level emits one `CHECK:` line
and returns `true`. -/
theorem c3_witness :
    (_chk Info (some "boom") env0 st0).1 = true ∧
    ((_chk Info (some "boom") env0 st0).2).output =
      ["T  info  CHECK: boom L\n"] := by
  obtain ⟨h1, h2, h3⟩ := c3_check_printer Info env0 st0 "boom" (by decide)
  refine ⟨h2, ?_⟩
  rw [h3]
  rfl

/-- C4: for every defined level and every default, the trimmed display name
round-trips through the case-sensitive string lookup back to the level. -/
theorem c4_level_name_roundtrip : ∀ d : Level,
    GetLevelByString (GetLevelName Off) d = Off ∧
    GetLevelByString (GetLevelName Fatal) d = Fatal ∧
    GetLevelByString (GetLevelName Error) d = Error ∧
    GetLevelByString (GetLevelName Check) d = Check ∧
    GetLevelByString (GetLevelName Warn) d = Warn ∧
    GetLevelByString (GetLevelName Info) d = Info ∧
    GetLevelByString (GetLevelName Debug) d = Debug ∧
    GetLevelByString (GetLevelName Trace) d = Trace :=
  fun _ => ⟨rfl, rfl, rfl, rfl, rfl, rfl, rfl, rfl⟩

/-- C5 counterexample: with threshold `Trace`, a closure message `"m\n"`
yields the emitted line `"T  info  m\n L\n"` — the message's trailing newline
is NOT stripped (it sits before the location field), unlike the line
`"T  info  m L\n"` that the claim predicts. -/
theorem c5_counterexample_embedded_newline :
    (_c Info pNewline env0 st0).output = ["T  info  m\n L\n"] ∧
    (((_c Info pNewline env0 st0).output == ["T  info  m L\n"]) = false) := by
  exact ⟨by decide, by decide⟩

/-- C5 (amended): `TrimSuffix(s, "\n")` is applied to the whole assembled
line, which ends with the location field rather than the message; the
message therefore appears verbatim in the emitted line (its trailing
newlines preserved, followed by the location), and the trim step removes at
most one newline from the very end of the whole line. -/
theorem c5_trim_is_whole_line (level : Level) (p : Producer) (env : Env)
    (st : LogState) (h : level ≤ st.logLevel) :
    (logPrint level p env st).output =
      st.output ++ [env.timeOf st.timeStampFormat ++ " " ++ toUpper st.app
        ++ " " ++ env.colorize level (LvlStr level) ++ " " ++ (p st.calls).1
        ++ (trimSuffix (" " ++ env.loc) "\n" ++ "\n")] ∧
    (∀ s : String, trimSuffix s "\n" = s ∨ trimSuffix s "\n" ++ "\n" = s) := by
  constructor
  · rw [logPrint_pass _ _ _ _ h, entryLine_eq]
  · exact trimSuffix_newline_cases

/-- C5 witness: the amended statement evaluated on the concrete newline
message. -/
theorem c5_witness :
    (logPrint Info pNewline env0 st0).output = ["T  info  m\n L\n"] := by
  rw [(c5_trim_is_whole_line Info pNewline env0 st0 (by decide)).1]
  rfl

/-- C6 counterexample: with first element `" h"` (leading whitespace), the
code's header is `strings.TrimSpace(" h") = "h"`, so the emitted line does
not begin with the claim's predicted header `" h"` (trailing-only trim)
after the tag fields. -/
theorem c6_counterexample_leading_space :
    _s Info [GoVal.str " h"] env0 st0 =
      Except.ok { st0 with calls := 1, output := ["T  info  h\nD L\n"] } ∧
    (((("T  info  " ++ (trimTrailingSpace " h" ++ "\n")).data).isPrefixOf
      ("T  info  h\nD L\n" : String).data) = false) := by
  exact ⟨rfl, by decide⟩

/-- C6 (amended): if the first variadic element is a string `s`, the emitted
message begins with `s` with BOTH leading and trailing whitespace trimmed
(`strings.TrimSpace`) followed by a newline, and `s` is excluded from the
values passed to the structured-dump collaborator; if the first element is
not a string, the message begins with `"spew:\n"` and all elements are
dumped. -/
theorem c6_dump_header (level : Level) (env : Env) (st : LogState)
    (s : String) (rest : List GoVal) (v : GoVal) (rest2 : List GoVal)
    (h : level ≤ st.logLevel) (hv : v.isStr = false) :
    _s level (.str s :: rest) env st =
      Except.ok { st with
        calls := st.calls + 1,
        output := st.output ++ [env.timeOf st.timeStampFormat ++ " "
          ++ toUpper st.app ++ " " ++ env.colorize level (LvlStr level) ++ " "
          ++ (trimSpace s ++ "\n" ++ env.sdump rest)
          ++ (trimSuffix (" " ++ env.loc) "\n" ++ "\n")] } ∧
    _s level (v :: rest2) env st =
      Except.ok { st with
        calls := st.calls + 1,
        output := st.output ++ [env.timeOf st.timeStampFormat ++ " "
          ++ toUpper st.app ++ " " ++ env.colorize level (LvlStr level) ++ " "
          ++ ("spew:\n" ++ env.sdump (v :: rest2))
          ++ (trimSuffix (" " ++ env.loc) "\n" ++ "\n")] } := by
  constructor
  · show Except.ok (logPrint level
      (fun c => ((trimSpace s ++ "\n") ++ env.sdump rest, c + 1)) env st) = _
    rw [logPrint_pass _ _ _ _ h, entryLine_eq]
  · cases v with
    | str s2 => simp [GoVal.isStr] at hv
    | int n =>
        show Except.ok (logPrint level
          (fun c => ("spew:\n" ++ env.sdump (GoVal.int n :: rest2), c + 1))
          env st) = _
        rw [logPrint_pass _ _ _ _ h, entryLine_eq]
    | err m =>
        show Except.ok (logPrint level
          (fun c => ("spew:\n" ++ env.sdump (GoVal.err m :: rest2), c + 1))
          env st) = _
        rw [logPrint_pass _ _ _ _ h, entryLine_eq]

/-- C6 witness: the amended statement evaluated on a string header with
leading whitespace plus one dumped value, and on a non-string first
element. -/
theorem c6_witness :
    _s Info [GoVal.str " h", GoVal.int 3] env0 st0 =
      Except.ok { st0 with calls := 1, output := ["T  info  h\nD L\n"] } ∧
    _s Info [GoVal.int 3] env0 st0 =
      Except.ok { st0 with calls := 1, output := ["T  info  spew:\nD L\n"] } := by
  obtain ⟨h1, h2⟩ := c6_dump_header Info env0 st0 " h" [GoVal.int 3]
    (GoVal.int 3) [] (by decide) (by decide)
  constructor
  · rw [h1]
    rfl
  · rw [h2]
    rfl

/-- C7: for every level value outside the defined enumeration, the level
name lookup returns the zero value of the map (the empty string), trimmed to
the empty string; name lookup is total. -/
theorem c7_undefined_level_empty_name (ll : Level)
    (h : ll ≠ Off ∧ ll ≠ Fatal ∧ ll ≠ Error ∧ ll ≠ Check ∧ ll ≠ Warn ∧
      ll ≠ Info ∧ ll ≠ Debug ∧ ll ≠ Trace) :
    LvlStr ll = "" ∧ GetLevelName ll = "" := by
  obtain ⟨h1, h2, h3, h4, h5, h6, h7, h8⟩ := h
  have hL : LvlStr ll = "" := by
    unfold LvlStr
    rw [if_neg h1, if_neg h2, if_neg h3, if_neg h4, if_neg h5, if_neg h6,
      if_neg h7, if_neg h8]
  refine ⟨hL, ?_⟩
  unfold GetLevelName
  rw [hL]
  rfl

/-- C7 witness: the undefined level `100` yields the empty name. -/
theorem c7_witness : LvlStr 100 = "" ∧ GetLevelName 100 = "" :=
  c7_undefined_level_empty_name 100 (by decide)

/-- C8: the event trace of `SetTimeStampFormat` consists of the bare write
of the format string and contains no acquisition of `writerMx`, whereas the
trace of `SetLogLevel` does acquire the lock: the timestamp-format write is
NOT performed under the lock that guards the gate-check-format-write
sequence. -/
theorem c8_set_time_stamp_format_not_locked :
    SetTimeStampFormatEv "2006-01-02" =
      [Ev.writeTimeStampFormat "2006-01-02"] ∧
    ((SetTimeStampFormatEv "2006-01-02").contains Ev.lock = false) ∧
    ((SetLogLevelEv Info).contains Ev.lock = true) := by
  exact ⟨rfl, by decide, by decide⟩

/-- C9: the dump printer with an empty variadic list hits the unconditional
`a[0]` index out of bounds and panics, for every level and every state (in
particular regardless of the threshold, i.e. before any gate check), with no
output produced. -/
theorem c9_dump_empty_args_out_of_range :
    ∀ (level : Level) (env : Env) (st : LogState),
      _s level [] env st =
        Except.error "runtime error: index out of range [0] with length 0" :=
  fun _ _ _ => rfl

/-- C10: for every gated configuration (`L > T`) and non-nil error, the
check printer still returns `true` while leaving the state (and so the sink)
untouched: its boolean result depends only on the presence of the error. -/
theorem c10_chk_true_despite_gate (level : Level) (env : Env) (st : LogState)
    (m : String) (h : st.logLevel < level) :
    _chk level (some m) env st = (true, st) := by
  show (true, logPrint level (joinStrings " " [.str "CHECK:", .err m]) env st)
    = (true, st)
  rw [logPrint_gate _ _ _ _ h]

/-- C10 witness: a `Debug` check at threshold `Info` returns `true` with no
output. -/
theorem c10_witness : _chk Debug (some "oops") env0 stInfo = (true, stInfo) :=
  c10_chk_true_despite_gate Debug env0 stInfo "oops" (by decide)

end GoLog
